import Mathlib

/-!
# Verification of the graph-db-editor core

Shallow embedding of the graph editor's data model and operations
(`src/routes/+page.svelte`, main editor document) together with proofs about
the editor's claimed properties.

Modelling conventions:
* JS numbers are modelled as real numbers (`ℝ`).
* The `nodes` / `edges` arrays and the id counters are gathered in a
  `GraphState` record; functions that mutate module-level variables become
  functions from state to state.
* `Edge.source` / `Edge.target` have TypeScript type `string | Node`; every
  consumer in the source normalises a `Node` value back to its `.id`
  (`typeof e.source === 'string' ? e.source : e.source.id`), so the embedding
  represents endpoints directly by their id strings.
* Selection `Set`s are modelled as duplicate-free lists (insertion order is
  the iteration order of a JS `Set`).
* `calculateNodeRadius` measures rendered text via the DOM (`getBBox`), so it
  is kept as an explicit function parameter `calcRadius : String → ℝ`.
* `new Date().toISOString()` is kept as an explicit `now : String` parameter.
-/

namespace GraphEditor

/-- Tagged payload of a property value: `string | number | {start, end}`. -/
inductive PropVal where
  | str (s : String)
  | num (x : ℝ)
  | range (startTime endTime : String)

/-- `PropertyValue` from the source: a `PropertyType` tag plus a payload. -/
structure PropertyValue where
  type : String
  value : PropVal

/-- `Node` from the source, including the d3 simulation fields
`fx`, `fy`, `vx`, `vy` (absent = `undefined` = `none`). -/
structure Node where
  id : String
  x : ℝ
  y : ℝ
  radius : ℝ
  label : String
  color : String
  properties : List (String × PropertyValue)
  fx : Option ℝ := none
  fy : Option ℝ := none
  vx : Option ℝ := none
  vy : Option ℝ := none

/-- `Edge` from the source; endpoints are node ids (see module comment). -/
structure Edge where
  id : String
  source : String
  target : String
  name : String
  properties : List (String × PropertyValue)

/-- Editor mode: `'force' | 'manual'`. -/
inductive Mode where
  | force
  | manual
deriving DecidableEq

/-- Module-level mutable state of the editor that the graph operations touch:
`nodes`, `edges`, `nodeCounter`, `edgeCounter`, `mode`. -/
structure GraphState where
  nodes : List Node
  edges : List Edge
  nodeCounter : Nat
  edgeCounter : Nat
  mode : Mode

/- Constants from the source. -/

def canvasWidth : ℝ := 1700
def canvasHeight : ℝ := 700
def minNodeRadius : ℝ := 15
def nodePadding : ℝ := 8
def clickThreshold : ℝ := 3
def repelDistance : ℝ := 80
def repelStrength : ℝ := 0.3
def maxRecursionDepth : Nat := 100

/-- JS `String.prototype.trim` (used as `name.trim()` throughout the source):
strips leading and trailing whitespace. Implemented over the character list
so that it evaluates definitionally. -/
def jsTrim (s : String) : String :=
  ⟨((s.data.dropWhile Char.isWhitespace).reverse.dropWhile Char.isWhitespace).reverse⟩

/-- The `createdAt` / `editedAt` timestamp properties every creation site
attaches (`{ type: 'datetime', value: now }`). -/
def timestampProps (now : String) : List (String × PropertyValue) :=
  [("createdAt", ⟨"datetime", .str now⟩), ("editedAt", ⟨"datetime", .str now⟩)]

/-- `addNode(x, y, label?)`: mints `node-${++nodeCounter}` and appends it.
A missing or empty label falls back to `Node ${nodeCounter + 1}` (JS `||`).
Returns the updated state together with the new node (the source returns
`newNode`). -/
def addNode (calcRadius : String → ℝ) (s : GraphState) (x y : ℝ) (label : Option String)
    (now : String) : GraphState × Node :=
  let nodeLabel :=
    match label with
    | some l => if l ≠ "" then l else "Node " ++ toString (s.nodeCounter + 1)
    | none => "Node " ++ toString (s.nodeCounter + 1)
  let newNode : Node :=
    { id := "node-" ++ toString (s.nodeCounter + 1), x := x, y := y,
      radius := calcRadius nodeLabel, label := nodeLabel, color := "#4285f4",
      properties := timestampProps now }
  ({ s with nodes := s.nodes ++ [newNode], nodeCounter := s.nodeCounter + 1 }, newNode)

/-- `createNodeFromDialog()`: creates a node only when a position is pending
and the trimmed name is nonempty; otherwise it just closes the dialog
(dialog-visibility state is UI-local and not part of `GraphState`). -/
def createNodeFromDialog (calcRadius : String → ℝ) (s : GraphState)
    (pendingNodePosition : Option (ℝ × ℝ)) (createNodeName : String) (now : String) :
    GraphState :=
  match pendingNodePosition with
  | some pos =>
      if jsTrim createNodeName ≠ "" then
        (addNode calcRadius s pos.1 pos.2 (some (jsTrim createNodeName)) now).1
      else s
  | none => s

/-- `confirmCreateEdge()`: when an edge is pending and the trimmed name is
nonempty, mints `edge-${++edgeCounter}` between the pending endpoints'
ids and appends it; otherwise the graph is untouched. No check that the
endpoints are still in the node set is performed. -/
def confirmCreateEdge (s : GraphState) (pendingEdge : Option (Node × Node))
    (createEdgeName : String) (now : String) : GraphState :=
  match pendingEdge with
  | some pe =>
      if jsTrim createEdgeName ≠ "" then
        { s with
          edgeCounter := s.edgeCounter + 1,
          edges := s.edges ++
            [{ id := "edge-" ++ toString (s.edgeCounter + 1), source := pe.1.id,
               target := pe.2.id, name := jsTrim createEdgeName,
               properties := timestampProps now }] }
      else s
  | none => s

/-- `createEdgeFromDialog()` (the handler wired to the create-edge dialog's
OK button and Enter key): bails out when the trimmed name is empty or no
edge is pending; otherwise appends an edge with id `edge-${edgeCounter++}`
(post-increment: the id uses the counter value *before* incrementing) and
the *untrimmed* name. No endpoint-existence check is performed. -/
def createEdgeFromDialog (s : GraphState) (pendingEdge : Option (Node × Node))
    (createEdgeName : String) (now : String) : GraphState :=
  match pendingEdge with
  | none => s
  | some pe =>
      if jsTrim createEdgeName = "" then s
      else
        { s with
          edges := s.edges ++
            [{ id := "edge-" ++ toString s.edgeCounter, source := pe.1.id,
               target := pe.2.id, name := createEdgeName,
               properties := timestampProps now }],
          edgeCounter := s.edgeCounter + 1 }

/-- `deleteNode(nodeToDelete)`: keeps exactly the edges incident to neither
endpoint of the deleted id and the nodes with a different id. The source
function has no `return` statement, so its JS value is `undefined`; the
second component models that returned value (`none`). -/
def deleteNode (s : GraphState) (nodeToDelete : Node) : GraphState × Option (List String) :=
  ({ s with
      edges := s.edges.filter fun e =>
        e.source != nodeToDelete.id && e.target != nodeToDelete.id,
      nodes := s.nodes.filter fun n => n.id != nodeToDelete.id },
   none)

/-- `spawnTestGraph()`: one `Center` node at the canvas centre plus 100
satellites `node-1 … node-100` on a circle of radius 250, each with one
edge `edge-i` from `node-0` to `node-i`; both counters end at 100. -/
noncomputable def spawnTestGraph (calcRadius : String → ℝ) (now : String) (s : GraphState) :
    GraphState :=
  let nNodes : Nat := 100
  let centerNode : Node :=
    { id := "node-0", x := canvasWidth / 2, y := canvasHeight / 2,
      radius := calcRadius "Center", label := "Center", color := "#4285f4",
      properties := timestampProps now }
  { s with
    nodes := centerNode :: (List.range nNodes).map (fun k =>
      let i : Nat := k + 1
      let angle := 2 * Real.pi * (i : ℝ) / (nNodes : ℝ)
      { id := "node-" ++ toString i, x := canvasWidth / 2 + 250 * Real.cos angle,
        y := canvasHeight / 2 + 250 * Real.sin angle,
        radius := calcRadius ("Node " ++ toString i), label := "Node " ++ toString i,
        color := "#4285f4", properties := timestampProps now }),
    edges := (List.range nNodes).map (fun k =>
      let i : Nat := k + 1
      { id := "edge-" ++ toString i, source := "node-0", target := "node-" ++ toString i,
        name := "Edge " ++ toString i, properties := timestampProps now }),
    nodeCounter := nNodes,
    edgeCounter := nNodes }

/-- The serialised shape consumed by `loadGraphData` (persisted data is
untyped JSON, so every field may be absent). -/
structure GraphData where
  version : Option Nat := none
  nodes : Option (List Node) := none
  edges : Option (List Edge) := none
  nodeCounter : Option Nat := none
  edgeCounter : Option Nat := none
  mode : Option Mode := none
  timestamp : Option String := none

/-- `getGraphDataForExport()`: schema version 1, nodes with the simulation
fields `fx`, `fy`, `vx`, `vy` cleared, edges with endpoints normalised to
ids (already ids in this embedding), both counters, mode and a timestamp. -/
def getGraphDataForExport (s : GraphState) (now : String) : GraphData :=
  { version := some 1,
    nodes := some (s.nodes.map fun n =>
      { n with fx := none, fy := none, vx := none, vy := none }),
    edges := some (s.edges.map fun e =>
      { e with source := e.source, target := e.target }),
    nodeCounter := some s.nodeCounter,
    edgeCounter := some s.edgeCounter,
    mode := some s.mode,
    timestamp := some now }

/-- `loadGraphData(graphData)`: installs the given records as-is, defaulting
missing collections to `[]`, missing counters to `0` and a missing mode to
`'force'` (JS `||` defaults). No validation of any kind is performed.
(`clearSelection()` / `restartSimulation()` are UI effects.) -/
def loadGraphData (graphData : GraphData) : GraphState :=
  { nodes := graphData.nodes.getD [],
    edges := graphData.edges.getD [],
    nodeCounter := graphData.nodeCounter.getD 0,
    edgeCounter := graphData.edgeCounter.getD 0,
    mode := graphData.mode.getD .force }

/-! ## The local repulsion propagator (`applyRepulsionForce`) -/

/-- One displacement of node `o` by the node at position `p` with force
multiplier `m` — the body of the `nodes.forEach` pass in
`applyRepulsionForce`: within `repelDistance` (and at nonzero distance) the
node is pushed along the offset vector by the linear-falloff force. -/
noncomputable def pushNode (p : Node) (m : ℝ) (o : Node) : Node :=
  let dx := o.x - p.x
  let dy := o.y - p.y
  let distance := Real.sqrt (dx * dx + dy * dy)
  if distance < repelDistance ∧ 0 < distance then
    let force := repelStrength * m * (repelDistance - distance) / distance
    { o with x := o.x + dx * force, y := o.y + dy * force }
  else o

/-- `movedDistance` from the source: how far a node travelled in one pass. -/
noncomputable def movedDistance (old new : Node) : ℝ :=
  Real.sqrt ((new.x - old.x) ^ 2 + (new.y - old.y) ^ 2)

/-- Whether a node moved by more than 1 pixel in the pass, the condition for
adding it to `pushedNodes`. -/
noncomputable def isPushed (p : Node) (m : ℝ) (o : Node) : Bool :=
  decide (1 < movedDistance o (pushNode p m o))

/-- Indices (into the node array) of the nodes collected in `pushedNodes`
during the pass of an invocation on the node at position `p`. The source
pushes object references; the array is only updated element-wise during
propagation, so positions in the list identify objects. -/
noncomputable def pushedIndices (p : Node) (m : ℝ) (ns : List Node) : List Nat :=
  (List.range ns.length).filter fun j =>
    match ns[j]? with
    | some o => isPushed p m o
    | none => false

mutual

/-- `applyRepulsionForce(draggedNode, depth, forceMultiplier)` on the node at
index `i`: returns immediately at `depth >= maxRecursionDepth`; otherwise
displaces every node in range in one synchronous pass and recurses on each
pushed node with `depth + 1` and `forceMultiplier * 0.6`. (The source also
computes a `connectedNodeIds` set from `edges`, but never uses it; the
propagation is independent of the edge set.) Totality of this definition is
the termination guarantee. -/
noncomputable def applyRepulsionForce (ns : List Node) (i : Nat) (depth : Nat) (m : ℝ) :
    List Node :=
  if _h : maxRecursionDepth ≤ depth then ns
  else
    match ns[i]? with
    | none => ns
    | some p =>
        applyRepulsionList (ns.map (pushNode p m)) (pushedIndices p m ns) (depth + 1) (m * 0.6)
termination_by (maxRecursionDepth + 1 - depth, 0)

/-- The `pushedNodes.forEach` loop: recursive invocations on the pushed nodes
in order, each seeing the state left by the previous one. -/
noncomputable def applyRepulsionList (ns : List Node) (js : List Nat) (depth : Nat) (m : ℝ) :
    List Node :=
  match js with
  | [] => ns
  | j :: rest => applyRepulsionList (applyRepulsionForce ns j depth m) rest depth m
termination_by (maxRecursionDepth + 1 - depth, js.length + 1)

end

mutual

/-- Instrumentation of `applyRepulsionForce`: the `(depth, forceMultiplier)`
pair of every invocation whose body executes (i.e. that passes the
recursion-depth guard and finds its node), in call order. -/
noncomputable def repulsionCalls (ns : List Node) (i : Nat) (depth : Nat) (m : ℝ) :
    List (Nat × ℝ) :=
  if _h : maxRecursionDepth ≤ depth then []
  else
    match ns[i]? with
    | none => []
    | some p =>
        (depth, m) ::
          repulsionCallsList (ns.map (pushNode p m)) (pushedIndices p m ns) (depth + 1) (m * 0.6)
termination_by (maxRecursionDepth + 1 - depth, 0)

/-- Instrumentation of `applyRepulsionList`. -/
noncomputable def repulsionCallsList (ns : List Node) (js : List Nat) (depth : Nat) (m : ℝ) :
    List (Nat × ℝ) :=
  match js with
  | [] => []
  | j :: rest =>
      repulsionCalls ns j depth m ++
        repulsionCallsList (applyRepulsionForce ns j depth m) rest depth m
termination_by (maxRecursionDepth + 1 - depth, js.length + 1)

end

/-! ## Pointer interaction -/

/-- `selectNode(node, event)` acting on the two selection sets: shift held
toggles the node's membership, otherwise the node becomes the only
selection. -/
def selectNode (selN selE : List String) (node : Node) (shift : Bool) :
    List String × List String :=
  if shift then
    (if node.id ∈ selN then selN.erase node.id else selN ++ [node.id], selE)
  else ([node.id], [])

/-- A d3 zoom transform: `applyX x = k * x + tx`, `applyY y = k * y + ty`. -/
structure ZoomTransform where
  k : ℝ
  tx : ℝ
  ty : ℝ

def ZoomTransform.applyX (t : ZoomTransform) (x : ℝ) : ℝ := t.k * x + t.tx

def ZoomTransform.applyY (t : ZoomTransform) (y : ℝ) : ℝ := t.k * y + t.ty

/-- `handleCanvasMouseUp` (the `isSelecting`, left-button case): below the
click threshold the release is a plain canvas click (clear the selection
unless shift is held); otherwise the screen-space selection rectangle picks
the nodes whose transformed positions fall inside it (union under shift,
replacement otherwise). Node positions are never touched; the node list is
returned alongside the selection to make that explicit.
`boxSelectedIds` is the rectangle test of that handler. -/
noncomputable def boxSelectedIds (nodes : List Node) (selectionStart endP : ℝ × ℝ)
    (t : ZoomTransform) : List String :=
  let selX := min selectionStart.1 endP.1
  let selY := min selectionStart.2 endP.2
  let selWidth := |endP.1 - selectionStart.1|
  let selHeight := |endP.2 - selectionStart.2|
  (nodes.filter fun node =>
    decide (selX ≤ t.applyX node.x ∧ t.applyX node.x ≤ selX + selWidth ∧
      selY ≤ t.applyY node.y ∧ t.applyY node.y ≤ selY + selHeight)).map Node.id

noncomputable def handleCanvasMouseUp (nodes : List Node) (selN selE : List String)
    (selectionStart endP : ℝ × ℝ) (shift : Bool) (t : ZoomTransform) :
    List Node × List String × List String :=
  let movedDist :=
    Real.sqrt ((endP.1 - selectionStart.1) ^ 2 + (endP.2 - selectionStart.2) ^ 2)
  if movedDist < clickThreshold then
    if shift then (nodes, selN, selE) else (nodes, [], [])
  else
    let newly := boxSelectedIds nodes selectionStart endP t
    if shift then (nodes, selN ++ newly.filter (fun id => decide (id ∉ selN)), selE)
    else (nodes, newly, [])

/-- The editor state a left-button node drag works on: the node array, both
selection sets, the mode, and the drag bookkeeping (`dragStartPosition`,
`dragOffsets`). The dragged node is identified by its index in the array
(object identity; the array is never reordered during a drag). -/
structure PointerState where
  nodes : List Node
  selectedNodeIds : List String
  selectedEdgeIds : List String
  mode : Mode
  dragStartPosition : Option (ℝ × ℝ)
  dragOffsets : List (String × ℝ × ℝ)

/-- `dragOffsets.get(node.id) || { dx: 0, dy: 0 }`. -/
def offsetLookup (offs : List (String × ℝ × ℝ)) (id : String) : ℝ × ℝ :=
  match offs.find? (fun o => o.1 == id) with
  | some o => o.2
  | none => (0, 0)

/-- The per-member drag offsets `handleDragStart` precomputes for a
multi-selection drag: for every selected node, its id with its position
relative to the grabbed node `d`. -/
def startOffsets (s : PointerState) (d : Node) : List (String × ℝ × ℝ) :=
  (s.nodes.filter fun n => decide (n.id ∈ s.selectedNodeIds)).map
    (fun n => (n.id, n.x - d.x, n.y - d.y))

/-- `handleDragStart` (left button) on the node at index `i`: records the
drag start position (the d3 event coordinates start at the node's
position), precomputes per-member offsets when the grabbed node is part of
a multi-selection, and in force mode pins the affected node(s). -/
def handleDragStartLeft (s : PointerState) (i : Nat) : PointerState :=
  match s.nodes[i]? with
  | none => s
  | some d =>
      let multi := d.id ∈ s.selectedNodeIds ∧ 1 < s.selectedNodeIds.length
      let offs := if multi then startOffsets s d else []
      let ns :=
        match s.mode with
        | .force =>
            if multi then
              s.nodes.map fun n =>
                if n.id ∈ s.selectedNodeIds then { n with fx := some n.x, fy := some n.y }
                else n
            else s.nodes.set i { d with fx := some d.x, fy := some d.y }
        | .manual => s.nodes
      { s with nodes := ns, dragStartPosition := some (d.x, d.y), dragOffsets := offs }

/-- The position placement of the multi-drag branch of `handleDrag`: every
selected node is placed at the event position plus its precomputed offset
(manual mode, which writes only `x` / `y`). -/
def selectedPlacement (s : PointerState) (e : ℝ × ℝ) : List Node :=
  s.nodes.map fun node =>
    if node.id ∈ s.selectedNodeIds then
      let off := offsetLookup s.dragOffsets node.id
      { node with x := e.1 + off.1, y := e.2 + off.2 }
    else node

/-- The per-node update of the force-mode multi-drag placement: a selected
node is pinned and placed at the event position plus its offset. -/
def pinPlace (s : PointerState) (e : ℝ × ℝ) (node : Node) : Node :=
  if node.id ∈ s.selectedNodeIds then
    let off := offsetLookup s.dragOffsets node.id
    { node with
      fx := some (e.1 + off.1), fy := some (e.2 + off.2),
      x := e.1 + off.1, y := e.2 + off.2 }
  else node

/-- The position placement of the multi-drag branch of `handleDrag` in force
mode, which additionally pins (`fx` / `fy`) each selected node. -/
def selectedPinnedPlacement (s : PointerState) (e : ℝ × ℝ) : List Node :=
  s.nodes.map (pinPlace s e)

/-- The indices of the selected nodes (`nodesToUpdate` in the source), in
array order. -/
def selectedIdx (s : PointerState) : List Nat :=
  (List.range s.nodes.length).filter fun j =>
    match s.nodes[j]? with
    | some n => decide (n.id ∈ s.selectedNodeIds)
    | none => false

/-- `handleDrag` (the `!isDraggingForEdge` branch) for the node at index `i`
and event position `e`. Multi-drag places every selected node at the event
position plus its precomputed offset; in manual mode each placed node then
runs the repulsion propagator, in array order. A single drag moves just the
dragged node (manual mode runs the propagator on it and then rewrites the
dragged node's entry with its current coordinates — a reactivity no-op). -/
noncomputable def handleDragMove (s : PointerState) (i : Nat) (e : ℝ × ℝ) : PointerState :=
  match s.nodes[i]? with
  | none => s
  | some d =>
      if d.id ∈ s.selectedNodeIds ∧ 1 < s.selectedNodeIds.length ∧ s.dragOffsets ≠ [] then
        match s.mode with
        | .force => { s with nodes := selectedPinnedPlacement s e }
        | .manual =>
            { s with
              nodes := (selectedIdx s).foldl (fun acc j => applyRepulsionForce acc j 0 1)
                (selectedPlacement s e) }
      else
        match s.mode with
        | .force =>
            { s with nodes :=
                s.nodes.set i { d with fx := some e.1, fy := some e.2, x := e.1, y := e.2 } }
        | .manual =>
            let ns1 := s.nodes.set i { d with x := e.1, y := e.2 }
            let ns2 := applyRepulsionForce ns1 i 0 1
            match ns2[i]? with
            | some dcur =>
                { s with nodes := ns2.map fun node =>
                    if node.id = dcur.id then { node with x := dcur.x, y := dcur.y } else node }
            | none => { s with nodes := ns2 }

/-- `handleDragEnd` (the non-edge branch) at release position `e`: a release
within `clickThreshold` of the drag start is reinterpreted as a click on
the node (`selectNode`); the drag bookkeeping is reset; force mode unpins
the affected node(s). Node `x` / `y` coordinates are never written here. -/
noncomputable def handleDragEndLeft (s : PointerState) (i : Nat) (e : ℝ × ℝ) (shift : Bool) : PointerState :=
  match s.nodes[i]? with
  | none => s
  | some d =>
      let sel :=
        match s.dragStartPosition with
        | some st =>
            if Real.sqrt ((e.1 - st.1) ^ 2 + (e.2 - st.2) ^ 2) < clickThreshold then
              selectNode s.selectedNodeIds s.selectedEdgeIds d shift
            else (s.selectedNodeIds, s.selectedEdgeIds)
        | none => (s.selectedNodeIds, s.selectedEdgeIds)
      let s1 := { s with
        selectedNodeIds := sel.1, selectedEdgeIds := sel.2,
        dragStartPosition := none, dragOffsets := [] }
      match s.mode with
      | .force =>
          if 1 < s1.selectedNodeIds.length then
            { s1 with nodes := s1.nodes.map fun n =>
                if n.id ∈ s1.selectedNodeIds then { n with fx := none, fy := none } else n }
          else { s1 with nodes := s1.nodes.set i { d with fx := none, fy := none } }
      | .manual => s1

/-- A full left-button press–move–release sequence on the node at index `i`:
`handleDragStart`, one `handleDrag` per move event, then `handleDragEnd`
at the release position. -/
noncomputable def nodeDragSequence (s : PointerState) (i : Nat) (moves : List (ℝ × ℝ))
    (endP : ℝ × ℝ) (shift : Bool) : PointerState :=
  let s1 := handleDragStartLeft s i
  let s2 := moves.foldl (fun st ev => handleDragMove st i ev) s1
  handleDragEndLeft s2 i endP shift

/-! ## Concrete fixtures used by witnesses and counterexamples -/

/-- A concrete node `node-1` at the origin. -/
def nodeA : Node :=
  { id := "node-1", x := 0, y := 0, radius := 15, label := "A", color := "#4285f4",
    properties := [] }

/-- A concrete node `node-2`. -/
def nodeB : Node :=
  { id := "node-2", x := 100, y := 0, radius := 15, label := "B", color := "#4285f4",
    properties := [] }

/-- The empty editor state. -/
def emptyState : GraphState :=
  { nodes := [], edges := [], nodeCounter := 0, edgeCounter := 0, mode := .manual }

/-- An edge `edge-1` between `node-1` and `node-2`. -/
def edgeAB : Edge :=
  { id := "edge-1", source := "node-1", target := "node-2", name := "e", properties := [] }

/-- An edge whose endpoints `node-7` / `node-8` exist in no graph below. -/
def danglingEdge : Edge :=
  { id := "edge-9", source := "node-7", target := "node-8", name := "dangling",
    properties := [] }

/-- A two-node, one-edge state. -/
def pairState : GraphState :=
  { nodes := [nodeA, nodeB], edges := [edgeAB], nodeCounter := 2, edgeCounter := 1,
    mode := .manual }

/-! ## C10 — blank dialog names do nothing -/

/-- C10: Confirming the create-node dialog (`createNodeFromDialog`) or the
create-edge dialog (`confirmCreateEdge` / `createEdgeFromDialog`) with an
empty or whitespace-only name leaves the graph state entirely unchanged:
no node or edge is created and neither id counter advances. -/
theorem blank_name_dialogs_leave_graph_unchanged (calcRadius : String → ℝ) (s : GraphState)
    (pos : Option (ℝ × ℝ)) (pend : Option (Node × Node)) (name now : String)
    (hname : jsTrim name = "") :
    createNodeFromDialog calcRadius s pos name now = s ∧
    confirmCreateEdge s pend name now = s ∧
    createEdgeFromDialog s pend name now = s := by
  refine ⟨?_, ?_, ?_⟩
  · cases pos <;> simp [createNodeFromDialog, hname]
  · cases pend <;> simp [confirmCreateEdge, hname]
  · cases pend <;> simp [createEdgeFromDialog, hname]

/-- C10 witness: a whitespace-only name, at a concrete state. -/
theorem blank_name_dialogs_witness :
    (jsTrim "   " = "") ∧
    (createNodeFromDialog (fun _ => 15) pairState (some (0, 0)) "   " "t" = pairState ∧
      confirmCreateEdge pairState (some (nodeA, nodeB)) "   " "t" = pairState ∧
      createEdgeFromDialog pairState (some (nodeA, nodeB)) "   " "t" = pairState) :=
  ⟨by decide, blank_name_dialogs_leave_graph_unchanged (fun _ => 15) pairState (some (0, 0))
    (some (nodeA, nodeB)) "   " "t" (by decide)⟩

/-! ## C1 — edge creation with absent endpoints -/

/-- C1 counterexample: with an empty node set (so both pending endpoints'
ids are absent), both edge-creation handlers still append the edge and
advance the edge counter — there is no `InvalidReference` failure and the
graph does not stay unchanged. -/
theorem edge_creation_ignores_missing_endpoints :
    emptyState.nodes = [] ∧
    (confirmCreateEdge emptyState (some (nodeA, nodeB)) "e" "t").edges.length = 1 ∧
    (confirmCreateEdge emptyState (some (nodeA, nodeB)) "e" "t").edgeCounter = 1 ∧
    (createEdgeFromDialog emptyState (some (nodeA, nodeB)) "e" "t").edges.length = 1 ∧
    (createEdgeFromDialog emptyState (some (nodeA, nodeB)) "e" "t").edgeCounter = 1 :=
  ⟨rfl, rfl, rfl, rfl, rfl⟩

/-- C1 amended: edge creation performs no endpoint validation. For every
state (in particular one in which the pending endpoints' ids are absent
from the node set), as soon as a pending edge exists and the trimmed name
is nonempty, `confirmCreateEdge` appends exactly its new edge (and
`createEdgeFromDialog` likewise); the node set and node counter are never
touched by either handler. -/
theorem edge_creation_appends_unconditionally (s : GraphState) (pe : Node × Node)
    (name now : String) (hname : jsTrim name ≠ "") :
    (confirmCreateEdge s (some pe) name now).edges =
      s.edges ++ [⟨"edge-" ++ toString (s.edgeCounter + 1), pe.1.id, pe.2.id,
        jsTrim name, timestampProps now⟩] ∧
    (confirmCreateEdge s (some pe) name now).nodes = s.nodes ∧
    (confirmCreateEdge s (some pe) name now).nodeCounter = s.nodeCounter ∧
    (createEdgeFromDialog s (some pe) name now).edges =
      s.edges ++ [⟨"edge-" ++ toString s.edgeCounter, pe.1.id, pe.2.id,
        name, timestampProps now⟩] ∧
    (createEdgeFromDialog s (some pe) name now).nodes = s.nodes ∧
    (createEdgeFromDialog s (some pe) name now).nodeCounter = s.nodeCounter := by
  refine ⟨?_, ?_, ?_, ?_, ?_, ?_⟩ <;> simp [confirmCreateEdge, createEdgeFromDialog, hname]

/-- C1 amended, witness: a state with no nodes at all still gets the edge. -/
theorem edge_creation_appends_witness :
    (jsTrim "e" ≠ "") ∧
    (confirmCreateEdge emptyState (some (nodeA, nodeB)) "e" "t").edges =
      emptyState.edges ++ [⟨"edge-" ++ toString (emptyState.edgeCounter + 1),
        nodeA.id, nodeB.id, jsTrim "e", timestampProps "t"⟩] :=
  ⟨by decide,
    (edge_creation_appends_unconditionally emptyState (nodeA, nodeB) "e" "t" (by decide)).1⟩

/-! ## C2 — node deletion cascades exactly, but reports nothing -/

/-- C2 counterexample: deleting `node-1` from the two-node state removes
exactly the incident edge `edge-1`, but the operation's returned value is
`undefined` (`none`) — it does not report the removed edge ids
(`some ["edge-1"]`). -/
theorem deleteNode_reports_nothing :
    (deleteNode pairState nodeA).2 ≠ some ["edge-1"] ∧
    (deleteNode pairState nodeA).2 = none ∧
    (deleteNode pairState nodeA).1.edges = [] ∧
    (deleteNode pairState nodeA).1.nodes = [nodeB] :=
  ⟨by simp [deleteNode], rfl, rfl, rfl⟩

/-- C2 amended: removing a node deletes the node and exactly those edges
whose source or target equals the removed id — every other node and edge
survives unchanged and in order, and the counters and mode are untouched —
but the operation reports nothing (its value is `undefined`). -/
theorem deleteNode_removes_exactly_incident (s : GraphState) (n : Node) (_hn : n ∈ s.nodes) :
    (∀ e : Edge, e ∈ (deleteNode s n).1.edges ↔
      e ∈ s.edges ∧ e.source ≠ n.id ∧ e.target ≠ n.id) ∧
    (∀ m : Node, m ∈ (deleteNode s n).1.nodes ↔ m ∈ s.nodes ∧ m.id ≠ n.id) ∧
    (deleteNode s n).1.edges.Sublist s.edges ∧
    (deleteNode s n).1.nodes.Sublist s.nodes ∧
    (deleteNode s n).1.nodeCounter = s.nodeCounter ∧
    (deleteNode s n).1.edgeCounter = s.edgeCounter ∧
    (deleteNode s n).1.mode = s.mode ∧
    (deleteNode s n).2 = none := by
  refine ⟨?_, ?_, ?_, ?_, rfl, rfl, rfl, rfl⟩
  · intro e
    simp [deleteNode, List.mem_filter, and_assoc]
  · intro m
    simp [deleteNode, List.mem_filter]
  · exact List.filter_sublist _
  · exact List.filter_sublist _

/-- C2 amended, witness: the two-node state with its one incident edge. -/
theorem deleteNode_removes_exactly_witness :
    nodeA ∈ pairState.nodes ∧
    (edgeAB ∈ (deleteNode pairState nodeA).1.edges ↔
      edgeAB ∈ pairState.edges ∧ edgeAB.source ≠ nodeA.id ∧ edgeAB.target ≠ nodeA.id) ∧
    (nodeB ∈ (deleteNode pairState nodeA).1.nodes ↔
      nodeB ∈ pairState.nodes ∧ nodeB.id ≠ nodeA.id) ∧
    (deleteNode pairState nodeA).2 = none :=
  ⟨by simp [pairState],
    (deleteNode_removes_exactly_incident pairState nodeA (by simp [pairState])).1 edgeAB,
    (deleteNode_removes_exactly_incident pairState nodeA (by simp [pairState])).2.1 nodeB,
    (deleteNode_removes_exactly_incident pairState nodeA (by simp [pairState])).2.2.2.2.2.2.2⟩

/-! ## C3 — import performs no endpoint validation -/

/-- C3 counterexample: importing a data object whose only edge references
the absent nodes `node-7` / `node-8` keeps that edge in the loaded graph —
it is not dropped (no endpoint validation happens on import). -/
theorem import_keeps_dangling_edge :
    (loadGraphData { nodes := some [], edges := some [danglingEdge] }).nodes = [] ∧
    (loadGraphData { nodes := some [], edges := some [danglingEdge] }).edges =
      [danglingEdge] :=
  ⟨rfl, rfl⟩

/-- C3 amended: `loadGraphData` validates nothing. It installs exactly the
given node and edge records (defaulting absent collections to `[]`, absent
counters to `0` and an absent mode to `'force'`); in particular every edge
of the input — dangling or not — is kept in the loaded graph, and the
function is total, so malformed references never crash the import. -/
theorem loadGraphData_installs_records_verbatim (d : GraphData) :
    (loadGraphData d).nodes = d.nodes.getD [] ∧
    (loadGraphData d).edges = d.edges.getD [] ∧
    (∀ e : Edge, e ∈ d.edges.getD [] → e ∈ (loadGraphData d).edges) ∧
    (loadGraphData d).nodeCounter = d.nodeCounter.getD 0 ∧
    (loadGraphData d).edgeCounter = d.edgeCounter.getD 0 ∧
    (loadGraphData d).mode = d.mode.getD .force :=
  ⟨rfl, rfl, fun _ he => he, rfl, rfl, rfl⟩

/-- C3 amended, witness: the dangling edge of the concrete data object is
kept by the import. -/
theorem loadGraphData_verbatim_witness :
    danglingEdge ∈ (({ nodes := some [], edges := some [danglingEdge] } :
      GraphData).edges.getD []) ∧
    danglingEdge ∈
      (loadGraphData { nodes := some [], edges := some [danglingEdge] }).edges :=
  ⟨by simp,
    (loadGraphData_installs_records_verbatim
      { nodes := some [], edges := some [danglingEdge] }).2.2.1 danglingEdge (by simp)⟩

/-! ## C5 — the post-increment id collision -/

/-- The state right after `spawnTestGraph` runs on first load: edges
`edge-1` … `edge-100` and `edgeCounter = 100`. -/
noncomputable def testGraphState : GraphState :=
  spawnTestGraph (fun _ => 15) "t0" emptyState

/-- C5: every other creation site pre-increments its counter
(`node-${++nodeCounter}` / `edge-${++edgeCounter}`), but the dialog handler
`createEdgeFromDialog` post-increments (`edge-${edgeCounter++}`). Starting
from the spawned test graph, the very next edge created through the dialog
is minted as `edge-100` — an id that already names an existing edge — so
the edge ids of the resulting graph are not pairwise distinct. -/
theorem createEdgeFromDialog_duplicates_edge_id :
    ((createEdgeFromDialog testGraphState (some (nodeA, nodeB)) "e" "t1").edges.map
        Edge.id).getLast? = some "edge-100" ∧
    "edge-100" ∈ testGraphState.edges.map Edge.id ∧
    ¬ ((createEdgeFromDialog testGraphState (some (nodeA, nodeB)) "e" "t1").edges.map
        Edge.id).Nodup := by
  have hmem : "edge-100" ∈ testGraphState.edges.map Edge.id := by
    have he : testGraphState.edges.map Edge.id =
        (List.range 100).map (fun k => "edge-" ++ toString (k + 1)) := rfl
    rw [he]
    simp only [List.mem_map, List.mem_range]
    exact ⟨99, by norm_num, rfl⟩
  have hnew : (createEdgeFromDialog testGraphState (some (nodeA, nodeB)) "e" "t1").edges =
      testGraphState.edges ++
        [⟨"edge-100", nodeA.id, nodeB.id, "e", timestampProps "t1"⟩] := rfl
  refine ⟨?_, hmem, ?_⟩
  · rw [hnew, List.map_append]
    simp
  · rw [hnew, List.map_append]
    intro h
    rw [List.nodup_append] at h
    exact h.2.2 hmem (by simp)

/-! ## C4 — export / import round trip -/

/-- C4: starting from the spawned test graph (one `Center` node plus 100
satellites, each joined to the centre by one outgoing edge), exporting via
`getGraphDataForExport` and re-importing via `loadGraphData` reconstructs
exactly 101 nodes and 100 edges whose ids, labels/names, properties and
endpoints are identical to the originals. -/
theorem export_import_round_trip (calcRadius : String → ℝ) (now now2 : String)
    (s0 : GraphState) :
    (loadGraphData (getGraphDataForExport (spawnTestGraph calcRadius now s0)
      now2)).nodes.length = 101 ∧
    (loadGraphData (getGraphDataForExport (spawnTestGraph calcRadius now s0)
      now2)).edges.length = 100 ∧
    (loadGraphData (getGraphDataForExport (spawnTestGraph calcRadius now s0) now2)).nodes.map
        (fun n => (n.id, n.label, n.properties)) =
      (spawnTestGraph calcRadius now s0).nodes.map (fun n => (n.id, n.label, n.properties)) ∧
    (loadGraphData (getGraphDataForExport (spawnTestGraph calcRadius now s0) now2)).edges.map
        (fun e => (e.id, e.name, e.properties)) =
      (spawnTestGraph calcRadius now s0).edges.map (fun e => (e.id, e.name, e.properties)) ∧
    (loadGraphData (getGraphDataForExport (spawnTestGraph calcRadius now s0) now2)).edges.map
        (fun e => (e.source, e.target)) =
      (spawnTestGraph calcRadius now s0).edges.map (fun e => (e.source, e.target)) := by
  have hn : (loadGraphData (getGraphDataForExport (spawnTestGraph calcRadius now s0)
      now2)).nodes =
      (spawnTestGraph calcRadius now s0).nodes.map
        (fun n => { n with fx := none, fy := none, vx := none, vy := none }) := rfl
  have he : (loadGraphData (getGraphDataForExport (spawnTestGraph calcRadius now s0)
      now2)).edges =
      (spawnTestGraph calcRadius now s0).edges.map
        (fun e => { e with source := e.source, target := e.target }) := rfl
  refine ⟨?_, ?_, ?_, ?_, ?_⟩
  · rw [hn, List.length_map]
    simp [spawnTestGraph]
  · rw [he, List.length_map]
    simp [spawnTestGraph]
  · rw [hn, List.map_map]
    rfl
  · rw [he, List.map_map]
    rfl
  · rw [he, List.map_map]
    rfl

/-! ## C7 / C8 — the repulsion propagator -/

/-- Helper: an invocation at or beyond the recursion-depth cap does nothing. -/
theorem applyRepulsionForce_at_cap (ns : List Node) (i : Nat) (depth : Nat) (m : ℝ)
    (h : maxRecursionDepth ≤ depth) : applyRepulsionForce ns i depth m = ns := by
  rw [applyRepulsionForce]
  simp [h]

/-- Helper: the pushed-nodes loop at or beyond the cap does nothing. -/
theorem applyRepulsionList_at_cap (js : List Nat) (ns : List Node) (depth : Nat) (m : ℝ)
    (h : maxRecursionDepth ≤ depth) : applyRepulsionList ns js depth m = ns := by
  induction js generalizing ns with
  | nil => rw [applyRepulsionList]
  | cons j rest ih =>
      rw [applyRepulsionList, applyRepulsionForce_at_cap ns j depth m h]
      exact ih ns

/-- Helper: the instrumented call list of the pushed-nodes loop, bounded
given a bound for single invocations at the same depth. -/
theorem repulsionCallsList_bound (depth : Nat) (m : ℝ)
    (H : ∀ (ns : List Node) (i : Nat) (c : Nat × ℝ), c ∈ repulsionCalls ns i depth m →
      c.1 < maxRecursionDepth ∧ depth ≤ c.1 ∧ c.2 = m * 0.6 ^ (c.1 - depth)) :
    ∀ (js : List Nat) (ns : List Node) (c : Nat × ℝ), c ∈ repulsionCallsList ns js depth m →
      c.1 < maxRecursionDepth ∧ depth ≤ c.1 ∧ c.2 = m * 0.6 ^ (c.1 - depth) := by
  intro js
  induction js with
  | nil =>
      intro ns c hc
      rw [repulsionCallsList] at hc
      simp at hc
  | cons j rest ih =>
      intro ns c hc
      rw [repulsionCallsList] at hc
      rcases List.mem_append.mp hc with h1 | h2
      · exact H _ _ _ h1
      · exact ih _ _ h2

/-- Helper: every executed invocation recorded by `repulsionCalls` sits at a
depth in `[depth, maxRecursionDepth)` and carries the multiplier decayed by
`0.6` per level; proved by induction on the remaining depth budget. -/
theorem repulsionCalls_bound (n : Nat) :
    ∀ (depth : Nat), maxRecursionDepth - depth ≤ n →
      ∀ (ns : List Node) (i : Nat) (m : ℝ) (c : Nat × ℝ), c ∈ repulsionCalls ns i depth m →
        c.1 < maxRecursionDepth ∧ depth ≤ c.1 ∧ c.2 = m * 0.6 ^ (c.1 - depth) := by
  induction n with
  | zero =>
      intro depth h ns i m c hc
      have hd : maxRecursionDepth ≤ depth := by omega
      rw [repulsionCalls] at hc
      simp [hd] at hc
  | succ n ih =>
      intro depth h ns i m c hc
      by_cases hd : maxRecursionDepth ≤ depth
      · rw [repulsionCalls] at hc
        simp [hd] at hc
      · rw [repulsionCalls] at hc
        rw [dif_neg hd] at hc
        cases hni : ns[i]? with
        | none => rw [hni] at hc; simp at hc
        | some p =>
            rw [hni] at hc
            rcases List.mem_cons.mp hc with rfl | htail
            · exact ⟨by omega, le_refl _, by simp⟩
            · have hsub := repulsionCallsList_bound (depth + 1) (m * 0.6)
                (fun ns' i' c' hc' => ih (depth + 1) (by omega) ns' i' (m * 0.6) c' hc')
                _ _ _ htail
              obtain ⟨hlt, hge, heq⟩ := hsub
              refine ⟨hlt, by omega, ?_⟩
              rw [heq]
              have hd1 : c.1 - depth = (c.1 - (depth + 1)) + 1 := by omega
              rw [hd1, pow_succ]
              ring

/-- C7: for every graph and every invocation of the local repulsion
propagator, every executed call's recursion depth is strictly below the
configured cap `maxRecursionDepth` and its force multiplier is the initial
one decayed by the fixed factor `0.6 < 1` per recursion level; a node is
recursed on exactly when its one-pass displacement exceeds the
minimal-motion threshold of 1 pixel; and an invocation at or beyond the
cap does nothing. Termination on every input — dense or cyclic — is
witnessed by the totality of `applyRepulsionForce` itself. -/
theorem repulsion_depth_capped_and_decayed :
    (∀ (ns : List Node) (i depth : Nat) (m : ℝ) (c : Nat × ℝ),
      c ∈ repulsionCalls ns i depth m →
        c.1 < maxRecursionDepth ∧ depth ≤ c.1 ∧ c.2 = m * 0.6 ^ (c.1 - depth)) ∧
    (∀ (p : Node) (m : ℝ) (ns : List Node) (j : Nat),
      j ∈ pushedIndices p m ns ↔
        ∃ o, ns[j]? = some o ∧ 1 < movedDistance o (pushNode p m o)) ∧
    (∀ (ns : List Node) (i depth : Nat) (m : ℝ), maxRecursionDepth ≤ depth →
      applyRepulsionForce ns i depth m = ns) := by
  refine ⟨?_, ?_, ?_⟩
  · intro ns i depth m c hc
    exact repulsionCalls_bound (maxRecursionDepth - depth) depth le_rfl ns i m c hc
  · intro p m ns j
    constructor
    · intro hj
      rw [pushedIndices, List.mem_filter] at hj
      obtain ⟨hr, hf⟩ := hj
      cases hni : ns[j]? with
      | none => rw [hni] at hf; simp at hf
      | some o =>
          rw [hni] at hf
          simp only [isPushed, decide_eq_true_eq] at hf
          exact ⟨o, rfl, hf⟩
    · rintro ⟨o, ho, hmov⟩
      rw [pushedIndices, List.mem_filter]
      have hlen : j < ns.length := by
        by_contra hge
        rw [List.getElem?_eq_none (by omega)] at ho
        cases ho
      refine ⟨List.mem_range.mpr hlen, ?_⟩
      rw [ho]
      simp only [isPushed, decide_eq_true_eq]
      exact hmov
  · exact fun ns i depth m h => applyRepulsionForce_at_cap ns i depth m h

/-- A lone concrete node used to exercise the propagator. -/
def wSingle : Node :=
  { id := "w0", x := 0, y := 0, radius := 15, label := "W", color := "#4285f4",
    properties := [] }

/-- C7 witness: on the singleton graph the root invocation (depth 0,
multiplier 1) executes, and the theorem yields its bound. -/
theorem repulsion_depth_capped_witness :
    ((0 : Nat), (1 : ℝ)) ∈ repulsionCalls [wSingle] 0 0 1 ∧
    ((0 : Nat) < maxRecursionDepth ∧ 0 ≤ 0 ∧ (1 : ℝ) = 1 * 0.6 ^ (0 - 0)) := by
  have hmem : ((0 : Nat), (1 : ℝ)) ∈ repulsionCalls [wSingle] 0 0 1 := by
    rw [repulsionCalls]
    exact List.mem_cons_self _ _
  exact ⟨hmem, repulsion_depth_capped_and_decayed.1 [wSingle] 0 0 1 (0, 1) hmem⟩

/-- Helper: at the last admissible depth the recursive calls hit the cap,
so one invocation is exactly its synchronous pass over the node array. -/
theorem applyRepulsionForce_last_depth (ns : List Node) (i : Nat) (m : ℝ) (p : Node)
    (hp : ns[i]? = some p) :
    applyRepulsionForce ns i (maxRecursionDepth - 1) m = ns.map (pushNode p m) := by
  rw [applyRepulsionForce]
  have hg : ¬ (maxRecursionDepth ≤ maxRecursionDepth - 1) := by decide
  rw [dif_neg hg, hp]
  have h1 : maxRecursionDepth - 1 + 1 = maxRecursionDepth := by decide
  rw [h1]
  exact applyRepulsionList_at_cap _ _ _ _ le_rfl

/-- C8: when the propagator processes the node at index `i` (position `p`)
with multiplier `m`, then — looking at one invocation in isolation, i.e.
at the last depth below the cap, where the recursive continuation is cut —
every node `o` at distance `0 < d < repelDistance` from `p` is displaced
exactly by the linear-falloff force
`repelStrength * m * (repelDistance - d) / d` applied along the offset
vector, while a node at distance `d ≥ repelDistance` and a node coincident
with `p` (`d = 0`) are not displaced. -/
theorem repulsion_single_invocation_displacement (ns : List Node) (i j : Nat) (p o : Node)
    (m d : ℝ) (hp : ns[i]? = some p) (ho : ns[j]? = some o)
    (hd : d = Real.sqrt ((o.x - p.x) * (o.x - p.x) + (o.y - p.y) * (o.y - p.y))) :
    (0 < d ∧ d < repelDistance →
      (applyRepulsionForce ns i (maxRecursionDepth - 1) m)[j]? =
        some { o with
          x := o.x + (o.x - p.x) * (repelStrength * m * (repelDistance - d) / d),
          y := o.y + (o.y - p.y) * (repelStrength * m * (repelDistance - d) / d) }) ∧
    (repelDistance ≤ d →
      (applyRepulsionForce ns i (maxRecursionDepth - 1) m)[j]? = some o) ∧
    (d = 0 →
      (applyRepulsionForce ns i (maxRecursionDepth - 1) m)[j]? = some o) := by
  subst hd
  have hres : (applyRepulsionForce ns i (maxRecursionDepth - 1) m)[j]? =
      some (pushNode p m o) := by
    rw [applyRepulsionForce_last_depth ns i m p hp, List.getElem?_map, ho]
    rfl
  refine ⟨?_, ?_, ?_⟩
  · rintro ⟨h0, hR⟩
    rw [hres]
    congr 1
    rw [pushNode]
    simp only
    rw [if_pos ⟨hR, h0⟩]
  · intro hge
    rw [hres]
    congr 1
    rw [pushNode]
    simp only
    rw [if_neg]
    rintro ⟨hlt, -⟩
    exact absurd hlt (not_lt.mpr hge)
  · intro h0
    rw [hres]
    congr 1
    rw [pushNode]
    simp only
    rw [if_neg]
    rintro ⟨-, hpos⟩
    rw [h0] at hpos
    exact lt_irrefl 0 hpos

/-- A concrete node 30 pixels to the right of `wSingle`. -/
def wRight : Node :=
  { id := "w1", x := 30, y := 0, radius := 15, label := "V", color := "#4285f4",
    properties := [] }

/-- C8 witness: with the processed node at the origin and the other node at
`(30, 0)` (distance 30 < 80), multiplier 1, the pass moves the other node
to `x = 30 + 30 * (0.3 * 1 * 50 / 30) = 45`. -/
theorem repulsion_displacement_witness :
    ([wSingle, wRight] : List Node)[0]? = some wSingle ∧
    ((0 : ℝ) < 30 ∧ (30 : ℝ) < repelDistance) ∧
    (applyRepulsionForce [wSingle, wRight] 0 (maxRecursionDepth - 1) 1)[1]? =
      some { wRight with x := 45, y := 0 } := by
  have hd : (30 : ℝ) =
      Real.sqrt ((wRight.x - wSingle.x) * (wRight.x - wSingle.x) +
        (wRight.y - wSingle.y) * (wRight.y - wSingle.y)) := by
    have : (wRight.x - wSingle.x) * (wRight.x - wSingle.x) +
        (wRight.y - wSingle.y) * (wRight.y - wSingle.y) = (30 : ℝ) ^ 2 := by
      simp [wRight, wSingle]
      norm_num
    rw [this, Real.sqrt_sq (by norm_num)]
  have h := (repulsion_single_invocation_displacement [wSingle, wRight] 0 1 wSingle wRight
    1 30 rfl rfl hd).1 ⟨by norm_num, by rw [repelDistance]; norm_num⟩
  refine ⟨rfl, ⟨by norm_num, by rw [repelDistance]; norm_num⟩, ?_⟩
  rw [h]
  congr 1
  have hx : wRight.x + (wRight.x - wSingle.x) *
      (repelStrength * 1 * (repelDistance - 30) / 30) = (45 : ℝ) := by
    simp [wRight, wSingle, repelStrength, repelDistance]
    norm_num
  have hy : wRight.y + (wRight.y - wSingle.y) *
      (repelStrength * 1 * (repelDistance - 30) / 30) = (0 : ℝ) := by
    simp [wRight, wSingle]
  rw [hx, hy]

/-! ## Helper equation lemmas for the pointer handlers -/

/-- Helper: one unfolding of `applyRepulsionForce` below the cap. -/
theorem applyRepulsionForce_step (ns : List Node) (i : Nat) (depth : Nat) (m : ℝ) (p : Node)
    (hdep : ¬ maxRecursionDepth ≤ depth) (hp : ns[i]? = some p) :
    applyRepulsionForce ns i depth m =
      applyRepulsionList (ns.map (pushNode p m)) (pushedIndices p m ns) (depth + 1)
        (m * 0.6) := by
  rw [applyRepulsionForce, dif_neg hdep]
  simp only [hp]

/-- Helper: the pushed-nodes loop over an empty worklist. -/
theorem applyRepulsionList_nil (ns : List Node) (depth : Nat) (m : ℝ) :
    applyRepulsionList ns [] depth m = ns := by
  rw [applyRepulsionList]

/-- Helper: a node exactly at the processed position is not displaced. -/
theorem pushNode_self (p : Node) (m : ℝ) : pushNode p m p = p := by
  rw [pushNode]
  simp

/-- Helper: evaluation of one push at a known distance `d` inside the
repulsion band. -/
theorem pushNode_eval_of_dist (p o : Node) (m d : ℝ)
    (hd : Real.sqrt ((o.x - p.x) * (o.x - p.x) + (o.y - p.y) * (o.y - p.y)) = d)
    (h : d < repelDistance ∧ 0 < d) :
    pushNode p m o = { o with
      x := o.x + (o.x - p.x) * (repelStrength * m * (repelDistance - d) / d),
      y := o.y + (o.y - p.y) * (repelStrength * m * (repelDistance - d) / d) } := by
  rw [pushNode]
  simp only [hd]
  rw [if_pos h]

/-- Helper: the pushed-nodes list is empty when no node moves more than the
1-pixel threshold. -/
theorem pushedIndices_eq_nil (p : Node) (m : ℝ) (ns : List Node)
    (h : ∀ (j : Nat) (o : Node), ns[j]? = some o →
      ¬ 1 < movedDistance o (pushNode p m o)) :
    pushedIndices p m ns = [] := by
  rw [pushedIndices]
  rw [List.filter_eq_nil_iff]
  intro j _hj
  cases hni : ns[j]? with
  | none => simp
  | some o =>
      simp only [isPushed, decide_eq_true_eq]
      exact h j o hni

/-- Helper: unfolding of `handleDragMove` in the multi-selection manual-mode
branch. -/
theorem handleDragMove_manual_multi (s : PointerState) (i : Nat) (e : ℝ × ℝ) (d : Node)
    (hd : s.nodes[i]? = some d) (hsel : d.id ∈ s.selectedNodeIds)
    (hlen : 1 < s.selectedNodeIds.length) (hoffs : s.dragOffsets ≠ [])
    (hmode : s.mode = .manual) :
    handleDragMove s i e = { s with
      nodes := (selectedIdx s).foldl (fun acc j => applyRepulsionForce acc j 0 1)
        (selectedPlacement s e) } := by
  rw [handleDragMove]
  simp only [hd]
  rw [if_pos ⟨hsel, hlen, hoffs⟩]
  simp only [hmode]

/-- Helper: unfolding of `handleDragMove` in the multi-selection force-mode
branch. -/
theorem handleDragMove_force_multi (s : PointerState) (i : Nat) (e : ℝ × ℝ) (d : Node)
    (hd : s.nodes[i]? = some d) (hsel : d.id ∈ s.selectedNodeIds)
    (hlen : 1 < s.selectedNodeIds.length) (hoffs : s.dragOffsets ≠ [])
    (hmode : s.mode = .force) :
    handleDragMove s i e = { s with nodes := selectedPinnedPlacement s e } := by
  rw [handleDragMove]
  simp only [hd]
  rw [if_pos ⟨hsel, hlen, hoffs⟩]
  simp only [hmode]

/-- Helper: unfolding of `handleDragMove` in the single-node manual-mode
branch. -/
theorem handleDragMove_manual_single (s : PointerState) (i : Nat) (e : ℝ × ℝ) (d : Node)
    (hd : s.nodes[i]? = some d)
    (hnm : ¬ (d.id ∈ s.selectedNodeIds ∧ 1 < s.selectedNodeIds.length ∧ s.dragOffsets ≠ []))
    (hmode : s.mode = .manual) :
    handleDragMove s i e =
      (let ns2 := applyRepulsionForce (s.nodes.set i { d with x := e.1, y := e.2 }) i 0 1
      match ns2[i]? with
      | some dcur =>
          { s with nodes := ns2.map fun node =>
              if node.id = dcur.id then { node with x := dcur.x, y := dcur.y } else node }
      | none => { s with nodes := ns2 }) := by
  rw [handleDragMove]
  simp only [hd]
  rw [if_neg hnm]
  simp only [hmode]

/-- Helper: `handleDragEnd` in the click branch (below the threshold),
manual mode: only the selection and the drag bookkeeping change. -/
theorem handleDragEndLeft_click_manual (s : PointerState) (i : Nat) (e : ℝ × ℝ)
    (shift : Bool) (d : Node) (st : ℝ × ℝ)
    (hd : s.nodes[i]? = some d) (hst : s.dragStartPosition = some st)
    (hclick : Real.sqrt ((e.1 - st.1) ^ 2 + (e.2 - st.2) ^ 2) < clickThreshold)
    (hmode : s.mode = .manual) :
    handleDragEndLeft s i e shift = { s with
      selectedNodeIds := (selectNode s.selectedNodeIds s.selectedEdgeIds d shift).1,
      selectedEdgeIds := (selectNode s.selectedNodeIds s.selectedEdgeIds d shift).2,
      dragStartPosition := none, dragOffsets := [] } := by
  rw [handleDragEndLeft]
  simp only [hd, hst]
  rw [if_pos hclick]
  simp only [hmode]

/-! ## C6 — click vs drag -/

/-- Helper: a node does not move relative to itself. -/
theorem movedDistance_self (o : Node) : movedDistance o o = 0 := by
  rw [movedDistance]
  simp

/-- A lone unselected node for the sub-threshold drag counterexample. -/
def c6n : Node :=
  { id := "c1", x := 0, y := 0, radius := 15, label := "C", color := "#4285f4",
    properties := [] }

/-- `c6n` after being dragged to `(1, 0)`. -/
def c6d : Node :=
  { id := "c1", x := 1, y := 0, radius := 15, label := "C", color := "#4285f4",
    properties := [] }

/-- Manual-mode pointer state holding only `c6n`, nothing selected. -/
def c6s0 : PointerState :=
  { nodes := [c6n], selectedNodeIds := [], selectedEdgeIds := [], mode := .manual,
    dragStartPosition := none, dragOffsets := [] }

/-- Helper: the singleton repulsion invocation leaves the dragged node as
placed. -/
theorem applyRepulsion_singleton (d : Node) : applyRepulsionForce [d] 0 0 1 = [d] := by
  rw [applyRepulsionForce_step [d] 0 0 1 d (by decide) rfl]
  have hmap : [d].map (pushNode d 1) = [d] := by
    rw [show [d].map (pushNode d 1) = [pushNode d 1 d] from rfl, pushNode_self]
  have hpush : pushedIndices d 1 [d] = [] := by
    apply pushedIndices_eq_nil
    intro j o hj
    match j with
    | 0 =>
        rw [show ([d] : List Node)[0]? = some d from rfl] at hj
        cases hj
        rw [pushNode_self, movedDistance_self]
        norm_num
    | j + 1 => simp at hj
  rw [hmap, hpush]
  exact applyRepulsionList_nil _ _ _

/-- C6 counterexample: a press–move–release on the single node with total
displacement 1 (below the click threshold 3) is reinterpreted as a click —
the node becomes selected — but the node's position has still changed from
`(0, 0)` to `(1, 0)`: the intermediate move is not undone, so a
sub-threshold pointer sequence is not "only a selection change". -/
theorem subthreshold_click_still_moves_node :
    Real.sqrt (((1 : ℝ) - 0) ^ 2 + ((0 : ℝ) - 0) ^ 2) < clickThreshold ∧
    (nodeDragSequence c6s0 0 [(1, 0)] (1, 0) false).nodes.map (fun n => (n.x, n.y)) =
      [((1 : ℝ), (0 : ℝ))] ∧
    ((1 : ℝ), (0 : ℝ)) ≠ ((0 : ℝ), (0 : ℝ)) ∧
    (nodeDragSequence c6s0 0 [(1, 0)] (1, 0) false).selectedNodeIds = ["c1"] := by
  have hclick : Real.sqrt (((1 : ℝ) - 0) ^ 2 + ((0 : ℝ) - 0) ^ 2) < clickThreshold := by
    rw [show ((1 : ℝ) - 0) ^ 2 + ((0 : ℝ) - 0) ^ 2 = 1 by norm_num, Real.sqrt_one,
      clickThreshold]
    norm_num
  have hs1sel : (handleDragStartLeft c6s0 0).selectedNodeIds = [] := rfl
  have hnm : ¬ (c6n.id ∈ (handleDragStartLeft c6s0 0).selectedNodeIds ∧
      1 < (handleDragStartLeft c6s0 0).selectedNodeIds.length ∧
      (handleDragStartLeft c6s0 0).dragOffsets ≠ []) := by
    intro h
    rw [hs1sel] at h
    exact List.not_mem_nil _ h.1
  have h2 : handleDragMove (handleDragStartLeft c6s0 0) 0 (1, 0) =
      { handleDragStartLeft c6s0 0 with nodes := [c6d] } := by
    rw [handleDragMove_manual_single (handleDragStartLeft c6s0 0) 0 (1, 0) c6n rfl hnm rfl]
    have hset : (handleDragStartLeft c6s0 0).nodes.set 0
        { c6n with x := (1 : ℝ), y := (0 : ℝ) } = [c6d] := rfl
    simp only [hset, applyRepulsion_singleton,
      show ([c6d] : List Node)[0]? = some c6d from rfl]
    rfl
  have hseq : nodeDragSequence c6s0 0 [(1, 0)] (1, 0) false =
      handleDragEndLeft { handleDragStartLeft c6s0 0 with nodes := [c6d] } 0 (1, 0) false := by
    rw [nodeDragSequence]
    simp only [List.foldl_cons, List.foldl_nil, h2]
  have hend : handleDragEndLeft { handleDragStartLeft c6s0 0 with nodes := [c6d] } 0 (1, 0)
      false = { { handleDragStartLeft c6s0 0 with nodes := [c6d] } with
        selectedNodeIds := ["c1"], selectedEdgeIds := [],
        dragStartPosition := none, dragOffsets := [] } := by
    rw [handleDragEndLeft_click_manual
      { handleDragStartLeft c6s0 0 with nodes := [c6d] } 0 (1, 0) false c6d
      ((0 : ℝ), (0 : ℝ)) rfl rfl
      (by rw [show ((1 : ℝ) - 0) ^ 2 + ((0 : ℝ) - 0) ^ 2 = 1 by norm_num, Real.sqrt_one,
        clickThreshold]; norm_num) rfl]
    rfl
  refine ⟨hclick, ?_, ?_, ?_⟩
  · rw [hseq, hend]
    rfl
  · intro h
    have := congrArg Prod.fst h
    norm_num at this
  · rw [hseq, hend]

/-- Helper: writing back the element already at an index is a no-op. -/
theorem list_set_self {α : Type} {l : List α} {i : Nat} {a : α} (h : l[i]? = some a) :
    l.set i a = l := by
  apply List.ext_getElem?
  intro j
  by_cases hij : i = j
  · subst hij
    have hlen : i < l.length := by
      by_contra hge
      rw [List.getElem?_eq_none (by omega)] at h
      cases h
    rw [List.getElem?_set_self hlen, h]
  · rw [List.getElem?_set_ne hij]

/-- C6 amended: one constant, `clickThreshold`, governs both pointer paths
with the same strict `<` comparison. On the canvas path node positions are
never touched and a sub-threshold release without shift clears the
selection while an at-or-above-threshold release replaces it with the box
contents. On the node path `handleDragEnd` itself never writes node
coordinates; a sub-threshold release changes the selection via
`selectNode` and an at-or-above-threshold release leaves the selection
unchanged. (What fails in the original claim — see the counterexample — is
only that the node path does not undo the sub-threshold position change
made by the intermediate move events.) -/
theorem click_threshold_uniform_behavior :
    (∀ (nodes : List Node) (selN selE : List String) (st e : ℝ × ℝ) (shift : Bool)
      (t : ZoomTransform),
      (handleCanvasMouseUp nodes selN selE st e shift t).1 = nodes) ∧
    (∀ (nodes : List Node) (selN selE : List String) (st e : ℝ × ℝ) (t : ZoomTransform),
      Real.sqrt ((e.1 - st.1) ^ 2 + (e.2 - st.2) ^ 2) < clickThreshold →
      (handleCanvasMouseUp nodes selN selE st e false t).2 = ([], [])) ∧
    (∀ (nodes : List Node) (selN selE : List String) (st e : ℝ × ℝ) (t : ZoomTransform),
      ¬ Real.sqrt ((e.1 - st.1) ^ 2 + (e.2 - st.2) ^ 2) < clickThreshold →
      (handleCanvasMouseUp nodes selN selE st e false t).2 =
        (boxSelectedIds nodes st e t, [])) ∧
    (∀ (s : PointerState) (i : Nat) (e : ℝ × ℝ) (shift : Bool),
      (handleDragEndLeft s i e shift).nodes.map (fun n => (n.x, n.y)) =
        s.nodes.map (fun n => (n.x, n.y))) ∧
    (∀ (s : PointerState) (i : Nat) (e : ℝ × ℝ) (shift : Bool) (d : Node) (st : ℝ × ℝ),
      s.nodes[i]? = some d → s.dragStartPosition = some st →
      Real.sqrt ((e.1 - st.1) ^ 2 + (e.2 - st.2) ^ 2) < clickThreshold →
      (handleDragEndLeft s i e shift).selectedNodeIds =
        (selectNode s.selectedNodeIds s.selectedEdgeIds d shift).1) ∧
    (∀ (s : PointerState) (i : Nat) (e : ℝ × ℝ) (shift : Bool) (d : Node) (st : ℝ × ℝ),
      s.nodes[i]? = some d → s.dragStartPosition = some st →
      ¬ Real.sqrt ((e.1 - st.1) ^ 2 + (e.2 - st.2) ^ 2) < clickThreshold →
      (handleDragEndLeft s i e shift).selectedNodeIds = s.selectedNodeIds) := by
  refine ⟨?_, ?_, ?_, ?_, ?_, ?_⟩
  · intro nodes selN selE st e shift t
    simp only [handleCanvasMouseUp]
    split
    · split <;> rfl
    · split <;> rfl
  · intro nodes selN selE st e t h
    simp only [handleCanvasMouseUp]
    rw [if_pos h]
    rfl
  · intro nodes selN selE st e t h
    simp only [handleCanvasMouseUp]
    rw [if_neg h]
    rfl
  · intro s i e shift
    rw [handleDragEndLeft]
    cases hni : s.nodes[i]? with
    | none => rfl
    | some d =>
        simp only
        cases hmode : s.mode with
        | manual => rfl
        | force =>
            simp only
            split
            · rw [List.map_map]
              apply List.map_congr_left
              intro n _
              simp only [Function.comp]
              split <;> rfl
            · rw [List.map_set]
              exact list_set_self (by rw [List.getElem?_map, hni]; rfl)
  · intro s i e shift d st hd hst h
    rw [handleDragEndLeft]
    simp only [hd, hst]
    rw [if_pos h]
    cases hmode : s.mode with
    | manual => rfl
    | force =>
        simp only
        split <;> rfl
  · intro s i e shift d st hd hst h
    rw [handleDragEndLeft]
    simp only [hd, hst]
    rw [if_neg h]
    cases hmode : s.mode with
    | manual => rfl
    | force =>
        simp only
        split <;> rfl

/-- The pointer state used by the C6 witness: the single node `c6n`,
nothing selected, and a recorded drag start at the node's position. -/
def c6w : PointerState :=
  { nodes := [c6n], selectedNodeIds := [], selectedEdgeIds := [], mode := .manual,
    dragStartPosition := some (0, 0), dragOffsets := [] }

/-- C6 amended, witness: a 1-pixel release on the node of `c6w` is below the
threshold and selects the node. -/
theorem click_threshold_uniform_witness :
    c6w.nodes[0]? = some c6n ∧
    c6w.dragStartPosition = some ((0 : ℝ), (0 : ℝ)) ∧
    Real.sqrt ((((1 : ℝ), (0 : ℝ)).1 - ((0 : ℝ), (0 : ℝ)).1) ^ 2 +
      (((1 : ℝ), (0 : ℝ)).2 - ((0 : ℝ), (0 : ℝ)).2) ^ 2) < clickThreshold ∧
    (handleDragEndLeft c6w 0 ((1 : ℝ), (0 : ℝ)) false).selectedNodeIds =
      (selectNode c6w.selectedNodeIds c6w.selectedEdgeIds c6n false).1 := by
  have hlt : Real.sqrt ((((1 : ℝ), (0 : ℝ)).1 - ((0 : ℝ), (0 : ℝ)).1) ^ 2 +
      (((1 : ℝ), (0 : ℝ)).2 - ((0 : ℝ), (0 : ℝ)).2) ^ 2) < clickThreshold := by
    rw [show ((((1 : ℝ), (0 : ℝ)).1 - ((0 : ℝ), (0 : ℝ)).1) ^ 2 +
      (((1 : ℝ), (0 : ℝ)).2 - ((0 : ℝ), (0 : ℝ)).2) ^ 2) = 1 by norm_num, Real.sqrt_one,
      clickThreshold]
    norm_num
  exact ⟨rfl, rfl, hlt,
    click_threshold_uniform_behavior.2.2.2.2.1 c6w 0 ((1 : ℝ), (0 : ℝ)) false c6n
      ((0 : ℝ), (0 : ℝ)) rfl rfl hlt⟩

/-! ## C9 — multi-select drag -/

/-- Node `m1` at the origin, grabbed in the C9 counterexample. -/
def c9n1 : Node :=
  { id := "m1", x := 0, y := 0, radius := 15, label := "M1", color := "#4285f4",
    properties := [] }

/-- Node `m2`, 79 pixels to the right (inside the 80-pixel repulsion band). -/
def c9n2 : Node :=
  { id := "m2", x := 79, y := 0, radius := 15, label := "M2", color := "#4285f4",
    properties := [] }

/-- Manual-mode state with both nodes selected. -/
def c9s0 : PointerState :=
  { nodes := [c9n1, c9n2], selectedNodeIds := ["m1", "m2"], selectedEdgeIds := [],
    mode := .manual, dragStartPosition := none, dragOffsets := [] }

/-- `m1` as placed by the drag event `(1, 0)`. -/
def c9p1 : Node :=
  { id := "m1", x := 1, y := 0, radius := 15, label := "M1", color := "#4285f4",
    properties := [] }

/-- `m2` as placed by the drag event (offset 79 preserved, for the moment). -/
def c9p2 : Node :=
  { id := "m2", x := 80, y := 0, radius := 15, label := "M2", color := "#4285f4",
    properties := [] }

/-- `m2` after the repulsion pass of the grabbed node pushes it. -/
def c9q2 : Node :=
  { id := "m2", x := 80.3, y := 0, radius := 15, label := "M2", color := "#4285f4",
    properties := [] }

/-- `m1` after `m2`'s repulsion pass pushes it back. -/
def c9r1 : Node :=
  { id := "m1", x := 0.79, y := 0, radius := 15, label := "M1", color := "#4285f4",
    properties := [] }

/-- Helper: the placement of the counterexample drag event. -/
theorem c9_placement : selectedPlacement (handleDragStartLeft c9s0 0) (1, 0) =
    [c9p1, c9p2] := by
  have h : selectedPlacement (handleDragStartLeft c9s0 0) (1, 0) =
      [{ c9n1 with x := (1 : ℝ) + (0 - 0), y := (0 : ℝ) + (0 - 0) },
       { c9n2 with x := (1 : ℝ) + (79 - 0), y := (0 : ℝ) + (0 - 0) }] := rfl
  rw [h]
  simp only [c9n1, c9n2, c9p1, c9p2, Node.mk.injEq, List.cons.injEq, List.nil_eq]
  norm_num

/-- Helper: the grabbed node's repulsion invocation pushes `m2` by 0.3. -/
theorem c9_first_push : applyRepulsionForce [c9p1, c9p2] 0 0 1 = [c9p1, c9q2] := by
  have hd79 : Real.sqrt ((c9p2.x - c9p1.x) * (c9p2.x - c9p1.x) +
      (c9p2.y - c9p1.y) * (c9p2.y - c9p1.y)) = 79 := by
    rw [show (c9p2.x - c9p1.x) * (c9p2.x - c9p1.x) +
      (c9p2.y - c9p1.y) * (c9p2.y - c9p1.y) = (79 : ℝ) * 79 by
        simp only [c9p1, c9p2]; norm_num]
    exact Real.sqrt_mul_self (by norm_num)
  have hp12 : pushNode c9p1 1 c9p2 = c9q2 := by
    rw [pushNode_eval_of_dist c9p1 c9p2 1 79 hd79
      ⟨by rw [repelDistance]; norm_num, by norm_num⟩]
    simp only [c9p1, c9p2, c9q2, repelStrength, repelDistance, Node.mk.injEq]
    norm_num
  have hmoved2 : ¬ 1 < movedDistance c9p2 (pushNode c9p1 1 c9p2) := by
    rw [hp12, movedDistance]
    rw [show (c9q2.x - c9p2.x) ^ 2 + (c9q2.y - c9p2.y) ^ 2 = (0.3 : ℝ) ^ 2 by
      simp only [c9p2, c9q2]; norm_num]
    rw [Real.sqrt_sq (by norm_num)]
    norm_num
  rw [applyRepulsionForce_step [c9p1, c9p2] 0 0 1 c9p1 (by decide) rfl]
  have hm : [c9p1, c9p2].map (pushNode c9p1 1) = [c9p1, c9q2] := by
    rw [show [c9p1, c9p2].map (pushNode c9p1 1) =
      [pushNode c9p1 1 c9p1, pushNode c9p1 1 c9p2] from rfl, pushNode_self, hp12]
  have hpushed : pushedIndices c9p1 1 [c9p1, c9p2] = [] := by
    apply pushedIndices_eq_nil
    intro j o hj
    match j with
    | 0 =>
        rw [show ([c9p1, c9p2] : List Node)[0]? = some c9p1 from rfl] at hj
        cases hj
        rw [pushNode_self, movedDistance_self]
        norm_num
    | 1 =>
        rw [show ([c9p1, c9p2] : List Node)[1]? = some c9p2 from rfl] at hj
        cases hj
        exact hmoved2
    | j + 2 => simp at hj
  rw [hm, hpushed]
  exact applyRepulsionList_nil _ _ _

/-- Helper: `m2`'s repulsion invocation pushes the grabbed node back. -/
theorem c9_second_push : applyRepulsionForce [c9p1, c9q2] 1 0 1 = [c9r1, c9q2] := by
  have hd793 : Real.sqrt ((c9p1.x - c9q2.x) * (c9p1.x - c9q2.x) +
      (c9p1.y - c9q2.y) * (c9p1.y - c9q2.y)) = 79.3 := by
    rw [show (c9p1.x - c9q2.x) * (c9p1.x - c9q2.x) +
      (c9p1.y - c9q2.y) * (c9p1.y - c9q2.y) = (79.3 : ℝ) * 79.3 by
        simp only [c9p1, c9q2]; norm_num]
    exact Real.sqrt_mul_self (by norm_num)
  have hp21 : pushNode c9q2 1 c9p1 = c9r1 := by
    rw [pushNode_eval_of_dist c9q2 c9p1 1 79.3 hd793
      ⟨by rw [repelDistance]; norm_num, by norm_num⟩]
    simp only [c9p1, c9q2, c9r1, repelStrength, repelDistance, Node.mk.injEq]
    norm_num
  have hmoved1 : ¬ 1 < movedDistance c9p1 (pushNode c9q2 1 c9p1) := by
    rw [hp21, movedDistance]
    rw [show (c9r1.x - c9p1.x) ^ 2 + (c9r1.y - c9p1.y) ^ 2 = (0.21 : ℝ) ^ 2 by
      simp only [c9p1, c9r1]; norm_num]
    rw [Real.sqrt_sq (by norm_num)]
    norm_num
  rw [applyRepulsionForce_step [c9p1, c9q2] 1 0 1 c9q2 (by decide) rfl]
  have hm : [c9p1, c9q2].map (pushNode c9q2 1) = [c9r1, c9q2] := by
    rw [show [c9p1, c9q2].map (pushNode c9q2 1) =
      [pushNode c9q2 1 c9p1, pushNode c9q2 1 c9q2] from rfl, pushNode_self, hp21]
  have hpushed : pushedIndices c9q2 1 [c9p1, c9q2] = [] := by
    apply pushedIndices_eq_nil
    intro j o hj
    match j with
    | 0 =>
        rw [show ([c9p1, c9q2] : List Node)[0]? = some c9p1 from rfl] at hj
        cases hj
        exact hmoved1
    | 1 =>
        rw [show ([c9p1, c9q2] : List Node)[1]? = some c9q2 from rfl] at hj
        cases hj
        rw [pushNode_self, movedDistance_self]
        norm_num
    | j + 2 => simp at hj
  rw [hm, hpushed]
  exact applyRepulsionList_nil _ _ _

/-- C9 counterexample: manual mode, both nodes selected, grabbing `m1` at
`(0, 0)` and dragging it by `(1, 0)`. The placement first moves both
members by `(1, 0)` — to `(1, 0)` and `(80, 0)` — but the repulsion passes
that follow push `m2` to `x = 80.3` and then `m1` back to `x = 0.79`: the
members are not moved by the same `(dx, dy)` and the precomputed relative
offset (79) is not preserved (it becomes 79.51). -/
theorem manual_multidrag_breaks_offsets :
    (handleDragMove (handleDragStartLeft c9s0 0) 0 (1, 0)).nodes.map
      (fun n => (n.x, n.y)) = [((0.79 : ℝ), (0 : ℝ)), ((80.3 : ℝ), (0 : ℝ))] ∧
    (0.79 : ℝ) ≠ 0 + 1 ∧
    (80.3 : ℝ) - 0.79 ≠ 79 - 0 := by
  refine ⟨?_, by norm_num, by norm_num⟩
  have hmove := handleDragMove_manual_multi (handleDragStartLeft c9s0 0) 0 (1, 0) c9n1 rfl
    (by decide) (by decide) (List.cons_ne_nil _ _) rfl
  rw [hmove]
  have hidx : selectedIdx (handleDragStartLeft c9s0 0) = [0, 1] := rfl
  rw [hidx, c9_placement]
  simp only [List.foldl_cons, List.foldl_nil, c9_first_push, c9_second_push]
  rfl

/-- Helper: an offset lookup whose head entry carries the key. -/
theorem offsetLookup_cons_eq (o : String × ℝ × ℝ) (t : List (String × ℝ × ℝ)) (id : String)
    (h : o.1 = id) : offsetLookup (o :: t) id = o.2 := by
  rw [offsetLookup, List.find?_cons_of_pos _ (by simp [h])]

/-- Helper: an offset lookup skips a head entry with a different key. -/
theorem offsetLookup_cons_ne (o : String × ℝ × ℝ) (t : List (String × ℝ × ℝ)) (id : String)
    (h : o.1 ≠ id) : offsetLookup (o :: t) id = offsetLookup t id := by
  rw [offsetLookup, offsetLookup, List.find?_cons_of_neg _ (by simp [h])]

/-- Helper: with duplicate-free node ids, looking a selected node's id up in
the offsets precomputed at drag start yields exactly its position relative
to the grabbed node `d`. -/
theorem offsetLookup_offsets_aux (sel : List String) (d : Node) :
    ∀ (nodes : List Node), (nodes.map Node.id).Nodup → ∀ n ∈ nodes, n.id ∈ sel →
      offsetLookup ((nodes.filter fun m => decide (m.id ∈ sel)).map
        (fun m => (m.id, m.x - d.x, m.y - d.y))) n.id = (n.x - d.x, n.y - d.y) := by
  intro nodes
  induction nodes with
  | nil => intro _ n hn; cases hn
  | cons a rest ih =>
      intro hnodup n hn hsel
      rw [List.map_cons, List.nodup_cons] at hnodup
      by_cases hid : a.id = n.id
      · have han : a = n := by
          rcases List.mem_cons.mp hn with h | hmem
          · exact h.symm
          · exact absurd (hid ▸ List.mem_map_of_mem Node.id hmem) hnodup.1
        subst han
        rw [List.filter_cons_of_pos (by simpa using hsel), List.map_cons,
          offsetLookup_cons_eq _ _ _ rfl]
      · have hn' : n ∈ rest := by
          rcases List.mem_cons.mp hn with h | h
          · exact absurd (congrArg Node.id h.symm) hid
          · exact h
        by_cases hasel : a.id ∈ sel
        · rw [List.filter_cons_of_pos (by simpa using hasel), List.map_cons,
            offsetLookup_cons_ne _ _ _ hid]
          exact ih hnodup.2 n hn' hsel
        · rw [List.filter_cons_of_neg (by simpa using hasel)]
          exact ih hnodup.2 n hn' hsel

/-- The invariant a force-mode multi-drag maintains from drag start on:
selection, offsets and mode are unchanged, every index holds a node with
the original id, and unselected nodes keep their original positions. -/
def dragInv (s0 : PointerState) (d : Node) (st : PointerState) : Prop :=
  st.selectedNodeIds = s0.selectedNodeIds ∧
  st.dragOffsets = startOffsets s0 d ∧
  st.mode = Mode.force ∧
  ∀ (j : Nat) (n0 : Node), s0.nodes[j]? = some n0 →
    ∃ n', st.nodes[j]? = some n' ∧ n'.id = n0.id ∧
      (n0.id ∉ s0.selectedNodeIds → n'.x = n0.x ∧ n'.y = n0.y)

/-- Helper: `handleDragStart` in the force-mode multi-selection branch pins
the selected nodes and records the start position and offsets. -/
theorem handleDragStartLeft_force_multi (s0 : PointerState) (i : Nat) (d : Node)
    (hd : s0.nodes[i]? = some d) (hsel : d.id ∈ s0.selectedNodeIds)
    (hlen : 1 < s0.selectedNodeIds.length) (hmode : s0.mode = .force) :
    handleDragStartLeft s0 i = { s0 with
      nodes := s0.nodes.map fun n =>
        if n.id ∈ s0.selectedNodeIds then { n with fx := some n.x, fy := some n.y } else n,
      dragStartPosition := some (d.x, d.y),
      dragOffsets := startOffsets s0 d } := by
  rw [handleDragStartLeft]
  simp only [hd, hmode]
  rw [if_pos ⟨hsel, hlen⟩, if_pos ⟨hsel, hlen⟩]

/-- Helper: the drag-start state satisfies the multi-drag invariant. -/
theorem handleDragStartLeft_inv (s0 : PointerState) (i : Nat) (d : Node)
    (hd : s0.nodes[i]? = some d) (hsel : d.id ∈ s0.selectedNodeIds)
    (hlen : 1 < s0.selectedNodeIds.length) (hmode : s0.mode = .force) :
    dragInv s0 d (handleDragStartLeft s0 i) := by
  rw [handleDragStartLeft_force_multi s0 i d hd hsel hlen hmode]
  refine ⟨rfl, rfl, hmode, ?_⟩
  intro j n0 h0
  refine ⟨_, by rw [List.getElem?_map, h0]; rfl, ?_, ?_⟩
  · by_cases hb : n0.id ∈ s0.selectedNodeIds <;> simp [hb]
  · intro hns
    simp [hns]

/-- Helper: a force-mode multi-drag move preserves the invariant and places
every selected node at the event position plus its start offset. -/
theorem dragInv_step (s0 : PointerState) (i : Nat) (d : Node) (e : ℝ × ℝ)
    (st : PointerState) (hd0 : s0.nodes[i]? = some d) (hsel : d.id ∈ s0.selectedNodeIds)
    (hlen : 1 < s0.selectedNodeIds.length) (hnodup : (s0.nodes.map Node.id).Nodup)
    (hinv : dragInv s0 d st) :
    dragInv s0 d (handleDragMove st i e) ∧
    ∀ (j : Nat) (n0 : Node), s0.nodes[j]? = some n0 → n0.id ∈ s0.selectedNodeIds →
      ∃ n', (handleDragMove st i e).nodes[j]? = some n' ∧ n'.id = n0.id ∧
        n'.x = e.1 + (n0.x - d.x) ∧ n'.y = e.2 + (n0.y - d.y) := by
  obtain ⟨ha, hb, hc, hns⟩ := hinv
  obtain ⟨d', hd', hid', -⟩ := hns i d hd0
  have hoffsne : startOffsets s0 d ≠ [] := by
    have hdm : d ∈ s0.nodes := List.getElem?_mem hd0
    have hmemf : d ∈ s0.nodes.filter fun m => decide (m.id ∈ s0.selectedNodeIds) :=
      List.mem_filter.mpr ⟨hdm, by simpa using hsel⟩
    rw [startOffsets]
    intro hnil
    rw [List.map_eq_nil_iff] at hnil
    rw [hnil] at hmemf
    cases hmemf
  have hmove := handleDragMove_force_multi st i e d' hd'
    (by rw [ha, hid']; exact hsel) (by rw [ha]; exact hlen) (by rw [hb]; exact hoffsne) hc
  rw [hmove]
  constructor
  · refine ⟨ha, hb, hc, ?_⟩
    intro j n0 h0
    obtain ⟨n', hn', hidn, hpos⟩ := hns j n0 h0
    refine ⟨pinPlace st e n', ?_, ?_, ?_⟩
    · show (selectedPinnedPlacement st e)[j]? = _
      rw [selectedPinnedPlacement, List.getElem?_map, hn']
      rfl
    · rw [pinPlace]
      split <;> rw [hidn]
    · intro hnsel
      rw [pinPlace, ha, hidn, if_neg hnsel]
      exact hpos hnsel
  · intro j n0 h0 hs0
    obtain ⟨n', hn', hidn, -⟩ := hns j n0 h0
    refine ⟨pinPlace st e n', ?_, ?_, ?_⟩
    · show (selectedPinnedPlacement st e)[j]? = _
      rw [selectedPinnedPlacement, List.getElem?_map, hn']
      rfl
    · rw [pinPlace]
      split <;> rw [hidn]
    · rw [pinPlace, ha, hidn, if_pos hs0, hb]
      rw [startOffsets, offsetLookup_offsets_aux s0.selectedNodeIds d s0.nodes hnodup n0
        (List.getElem?_mem h0) hs0]
      exact ⟨rfl, rfl⟩

/-- Helper: the invariant survives any sequence of move events. -/
theorem dragInv_fold (s0 : PointerState) (i : Nat) (d : Node)
    (hd0 : s0.nodes[i]? = some d) (hsel : d.id ∈ s0.selectedNodeIds)
    (hlen : 1 < s0.selectedNodeIds.length) (hnodup : (s0.nodes.map Node.id).Nodup) :
    ∀ (ms : List (ℝ × ℝ)) (st : PointerState), dragInv s0 d st →
      dragInv s0 d (ms.foldl (fun st ev => handleDragMove st i ev) st) := by
  intro ms
  induction ms with
  | nil => intro st h; exact h
  | cons m rest ih =>
      intro st h
      rw [List.foldl_cons]
      exact ih _ (dragInv_step s0 i d m st hd0 hsel hlen hnodup h).1

/-- C9 amended: in force mode, when the grabbed node is already selected and
the selection has more than one member (with duplicate-free node ids),
then after the whole drag — any sequence of move events ending at `e` —
every selected node sits at `e` plus its precomputed start offset, i.e.
every member was moved by the same `(dx, dy)` as the grabbed node and the
relative offsets are preserved, while unselected nodes never move. In
manual mode this fails (see the counterexample): the repulsion passes that
follow the placement displace the members further. -/
theorem force_multidrag_moves_all_by_same_delta (s0 : PointerState) (i : Nat) (d : Node)
    (moves : List (ℝ × ℝ)) (e : ℝ × ℝ) (hmode : s0.mode = .force)
    (hd : s0.nodes[i]? = some d) (hsel : d.id ∈ s0.selectedNodeIds)
    (hlen : 1 < s0.selectedNodeIds.length) (hnodup : (s0.nodes.map Node.id).Nodup) :
    ∀ (j : Nat) (n0 : Node), s0.nodes[j]? = some n0 →
      ∃ n', ((moves ++ [e]).foldl (fun st ev => handleDragMove st i ev)
          (handleDragStartLeft s0 i)).nodes[j]? = some n' ∧ n'.id = n0.id ∧
        (n0.id ∈ s0.selectedNodeIds →
          n'.x = e.1 + (n0.x - d.x) ∧ n'.y = e.2 + (n0.y - d.y)) ∧
        (n0.id ∉ s0.selectedNodeIds → n'.x = n0.x ∧ n'.y = n0.y) := by
  intro j n0 h0
  rw [List.foldl_append, List.foldl_cons, List.foldl_nil]
  have hinv0 := handleDragStartLeft_inv s0 i d hd hsel hlen hmode
  have hinv := dragInv_fold s0 i d hd hsel hlen hnodup moves _ hinv0
  have hstep := dragInv_step s0 i d e _ hd hsel hlen hnodup hinv
  by_cases hns : n0.id ∈ s0.selectedNodeIds
  · obtain ⟨n', h1, h2, h3, h4⟩ := hstep.2 j n0 h0 hns
    exact ⟨n', h1, h2, fun _ => ⟨h3, h4⟩, fun hc => absurd hns hc⟩
  · obtain ⟨n', h1, h2, h3⟩ := hstep.1.2.2.2 j n0 h0
    exact ⟨n', h1, h2, fun hc => absurd hc hns, h3⟩

/-- Witness node `a` (grabbed). -/
def c9wa : Node :=
  { id := "a", x := 0, y := 0, radius := 15, label := "A", color := "#4285f4",
    properties := [] }

/-- Witness node `b`. -/
def c9wb : Node :=
  { id := "b", x := 5, y := 0, radius := 15, label := "B", color := "#4285f4",
    properties := [] }

/-- Witness node `c`. -/
def c9wc : Node :=
  { id := "c", x := 0, y := 7, radius := 15, label := "Cc", color := "#4285f4",
    properties := [] }

/-- Force-mode pointer state with all three witness nodes selected. -/
def c9ws : PointerState :=
  { nodes := [c9wa, c9wb, c9wc], selectedNodeIds := ["a", "b", "c"], selectedEdgeIds := [],
    mode := .force, dragStartPosition := none, dragOffsets := [] }

/-- C9 amended, witness: dragging `a` to `(10, 20)` in one event carries `b`
to `(10 + 5, 20 + 0)`. -/
theorem force_multidrag_witness :
    c9ws.mode = .force ∧ c9ws.nodes[0]? = some c9wa ∧
    c9wa.id ∈ c9ws.selectedNodeIds ∧ 1 < c9ws.selectedNodeIds.length ∧
    (c9ws.nodes.map Node.id).Nodup ∧
    (∃ n', (([] ++ [((10 : ℝ), (20 : ℝ))]).foldl (fun st ev => handleDragMove st 0 ev)
        (handleDragStartLeft c9ws 0)).nodes[1]? = some n' ∧ n'.id = c9wb.id ∧
      (c9wb.id ∈ c9ws.selectedNodeIds →
        n'.x = ((10 : ℝ), (20 : ℝ)).1 + (c9wb.x - c9wa.x) ∧
        n'.y = ((10 : ℝ), (20 : ℝ)).2 + (c9wb.y - c9wa.y)) ∧
      (c9wb.id ∉ c9ws.selectedNodeIds → n'.x = c9wb.x ∧ n'.y = c9wb.y)) :=
  ⟨rfl, rfl, by decide, by decide, by decide,
    force_multidrag_moves_all_by_same_delta c9ws 0 c9wa [] ((10 : ℝ), (20 : ℝ)) rfl rfl
      (by decide) (by decide) (by decide) 1 c9wb rfl⟩

end GraphEditor
